import Mathlib

/-!
Verification of the in-memory banking ledger (src/source.c).

The C program is shallowly embedded: C `double` amounts are modelled as
exact rationals (ℚ), fixed-size `char` buffers as lists of characters
truncated to the buffer size (`strncpy` semantics), the fixed-capacity
transaction array together with its count as a list of the recorded
transactions plus the count field, and the caller-managed registry
(`BankAccount**` plus a count) as a list of accounts, with pointer
mutation rendered as functional update at the account's index.
-/

/-- MAX_TRANSACTIONS from source.c. -/
def MAX_TRANSACTIONS : Nat := 10

/-- NAME_LENGTH from source.c. -/
def NAME_LENGTH : Nat := 5

/-- TransactionType enumeration from source.c. -/
inductive TransactionType where
  | DEPOSIT
  | WITHDRAWAL
deriving DecidableEq, Repr, Inhabited

/-- Transaction struct from source.c: kind, amount, and the description
buffer of 10 chars (strncpy truncates the text to at most 10 chars). -/
structure Transaction where
  type : TransactionType
  amount : ℚ
  description : List Char
deriving DecidableEq, Repr, Inhabited

/-- BankAccount struct from source.c.  The `transactions` list holds the
records occupying the first `transactionCount` slots of the C array. -/
structure BankAccount where
  accountNumber : Int
  holderName : List Char
  balance : ℚ
  transactions : List Transaction
  transactionCount : Nat
deriving DecidableEq, Repr, Inhabited

/-- createAccount from source.c (malloc-success path): given identifier,
holder name truncated by `strncpy(·, ·, NAME_LENGTH)`, balance 0, empty
transaction log. -/
def createAccount (accountNumber : Int) (holderName : List Char) : BankAccount :=
  { accountNumber := accountNumber
    holderName := holderName.take NAME_LENGTH
    balance := 0
    transactions := []
    transactionCount := 0 }

/-- addTransaction from source.c: if the log is at capacity, return with
no change; otherwise write the record at index transactionCount and
increment the count.  The description is truncated to 10 chars by
`strncpy(txn->description, description, 10)`. -/
def addTransaction (account : BankAccount) (type : TransactionType)
    (amount : ℚ) (description : List Char) : BankAccount :=
  if account.transactionCount ≥ MAX_TRANSACTIONS then
    account
  else
    { account with
      transactions :=
        account.transactions ++ [⟨type, amount, description.take 10⟩]
      transactionCount := account.transactionCount + 1 }

/-- deposit from source.c: returns the C return code together with the
account state after the call. -/
def deposit (account : BankAccount) (amount : ℚ) (description : List Char) :
    Int × BankAccount :=
  if amount ≤ 0 then
    (-1, account)
  else
    let account := { account with balance := account.balance + amount }
    (0, addTransaction account .DEPOSIT amount description)

/-- withdraw from source.c: returns the C return code together with the
account state after the call. -/
def withdraw (account : BankAccount) (amount : ℚ) (description : List Char) :
    Int × BankAccount :=
  if amount ≤ 0 then
    (-1, account)
  else if account.balance < amount then
    (-1, account)
  else
    let account := { account with balance := account.balance - amount }
    (0, addTransaction account .WITHDRAWAL amount description)

/-- findAccount from source.c, returning the index of the account the C
function's returned pointer points into the registry array (the loop
returns at the first match), or none when the loop falls through. -/
def findAccountIdx : List BankAccount → Int → Option Nat
  | [], _ => none
  | a :: rest, n =>
    if a.accountNumber = n then some 0
    else (findAccountIdx rest n).map (· + 1)

/-- findAccount from source.c viewed as returning the account value the
returned pointer refers to (NULL becomes none). -/
def findAccount : List BankAccount → Int → Option BankAccount
  | [], _ => none
  | a :: rest, n =>
    if a.accountNumber = n then some a else findAccount rest n

/-- transfer from source.c: look up both accounts; if either lookup gives
NULL, return; otherwise withdraw from the source and, only if that
returned 0, deposit into the destination.  Pointer mutation is rendered
as functional update at the looked-up indices, so aliasing (fromAccNum =
toAccNum, or duplicate account numbers) behaves as in C. -/
def transfer (accounts : List BankAccount) (fromAccNum toAccNum : Int)
    (amount : ℚ) : List BankAccount :=
  match findAccountIdx accounts fromAccNum with
  | none => accounts
  | some i =>
    match findAccountIdx accounts toAccNum with
    | none => accounts
    | some j =>
      let wd := withdraw (accounts.getD i default) amount ("Transfer to".toList)
      if wd.1 = 0 then
        let accounts1 := accounts.set i wd.2
        let dp := deposit (accounts1.getD j default) amount ("Transfer from".toList)
        accounts1.set j dp.2
      else
        accounts

/-- Single-account operation: a direct call of deposit or withdraw, as the
demo driver performs on an account obtained from the registry. -/
inductive AccountOp where
  | dep (amount : ℚ) (description : List Char)
  | wd (amount : ℚ) (description : List Char)
deriving DecidableEq, Repr

/-- Apply one single-account operation, keeping the C return code. -/
def applyOp (a : BankAccount) : AccountOp → Int × BankAccount
  | .dep amt d => deposit a amt d
  | .wd amt d => withdraw a amt d

/-- Run a sequence of single-account operations, keeping the state after
each call whether it succeeded or not (as the C driver does). -/
def runOps (a : BankAccount) : List AccountOp → BankAccount
  | [] => a
  | op :: ops => runOps (applyOp a op).2 ops

/-- All operations in the sequence return the success code 0 when run in
order from the given state. -/
def allSucceed (a : BankAccount) : List AccountOp → Bool
  | [] => true
  | op :: ops => (applyOp a op).1 == 0 && allSucceed (applyOp a op).2 ops

/-- Total of the amounts of the deposit operations in a sequence. -/
def depositsTotal (ops : List AccountOp) : ℚ :=
  (ops.map fun op => match op with | .dep amt _ => amt | .wd _ _ => 0).sum

/-- Total of the amounts of the withdrawal operations in a sequence. -/
def withdrawalsTotal (ops : List AccountOp) : ℚ :=
  (ops.map fun op => match op with | .wd amt _ => amt | .dep _ _ => 0).sum

/-- Signed contribution of one operation to the balance. -/
def opNet : AccountOp → ℚ
  | .dep amt _ => amt
  | .wd amt _ => -amt

/-- Net balance contribution of a sequence of operations. -/
def opsNet (ops : List AccountOp) : ℚ := (ops.map opNet).sum

/-- Signed amount of a recorded transaction. -/
def txnSigned (t : Transaction) : ℚ :=
  match t.type with
  | .DEPOSIT => t.amount
  | .WITHDRAWAL => -t.amount

/-- Net of a list of recorded transactions: deposits minus withdrawals. -/
def txnNet (ts : List Transaction) : ℚ := (ts.map txnSigned).sum

/-- Registry-level operation: a deposit or withdrawal on the account held
at a given slot of the registry (the driver calls deposit/withdraw through
`accounts[i]`), or a transfer between account numbers. -/
inductive RegOp where
  | dep (idx : Nat) (amount : ℚ) (description : List Char)
  | wd (idx : Nat) (amount : ℚ) (description : List Char)
  | xfer (fromAccNum toAccNum : Int) (amount : ℚ)
deriving DecidableEq, Repr

/-- Apply one registry-level operation; pointer mutation through the
registry slot becomes functional update of the list at that index. -/
def applyRegOp (accounts : List BankAccount) : RegOp → List BankAccount
  | .dep i amt d => accounts.set i (deposit (accounts.getD i default) amt d).2
  | .wd i amt d => accounts.set i (withdraw (accounts.getD i default) amt d).2
  | .xfer f t amt => transfer accounts f t amt

/-- Run a sequence of registry-level operations. -/
def runRegOps (accounts : List BankAccount) : List RegOp → List BankAccount
  | [] => accounts
  | op :: ops => runRegOps (applyRegOp accounts op) ops

/-- Well-formedness of an account's log bookkeeping: the recorded
transactions occupy exactly the first transactionCount slots of the
fixed-size array, and the count never exceeds the capacity. -/
def WF (a : BankAccount) : Prop :=
  a.transactionCount = a.transactions.length ∧
  a.transactionCount ≤ MAX_TRANSACTIONS

/-- One account state evolves from another by the banking operations:
well-formedness is preserved and the transaction log only grows at the
end. -/
def accStep (a b : BankAccount) : Prop :=
  (WF a → WF b) ∧ ∃ ts, b.transactions = a.transactions ++ ts

/-- Registry evolution: same length and slotwise accStep. -/
def regExt (xs ys : List BankAccount) : Prop :=
  ys.length = xs.length ∧ ∀ k : Nat, accStep (xs.getD k default) (ys.getD k default)

/-- Reading back the slot just written, in range. -/
lemma getD_set_self_of_lt {α : Type _} [Inhabited α] (l : List α) (i : Nat)
    (b : α) (h : i < l.length) : (l.set i b).getD i default = b := by
  rw [List.getD_eq_getElem _ _ (by simpa using h)]
  exact List.getElem_set_self (by simpa using h)

/-- Reading a slot other than the one written. -/
lemma getD_set_ne_idx {α : Type _} [Inhabited α] (l : List α) (i j : Nat)
    (b : α) (h : i ≠ j) : (l.set i b).getD j default = l.getD j default := by
  by_cases hj : j < l.length
  · rw [List.getD_eq_getElem _ _ (by simpa using hj), List.getD_eq_getElem _ _ hj]
    exact List.getElem_set_ne h (by simpa using hj)
  · rw [List.getD_eq_default _ _ (by simpa using Nat.le_of_not_lt hj),
      List.getD_eq_default _ _ (Nat.le_of_not_lt hj)]

/-- An in-range slot read is a member of the list. -/
lemma getD_mem_of_lt {α : Type _} [Inhabited α] (l : List α) (i : Nat)
    (h : i < l.length) : l.getD i default ∈ l := by
  rw [List.getD_eq_getElem _ _ h]
  exact List.getElem_mem h

/-- A successful lookup index is in range and lands on an account whose
number is the one searched. -/
lemma findAccountIdx_some_spec (accounts : List BankAccount) (n : Int) :
    ∀ i, findAccountIdx accounts n = some i →
      i < accounts.length ∧ (accounts.getD i default).accountNumber = n := by
  induction accounts with
  | nil => intro i h; simp [findAccountIdx] at h
  | cons a rest ih =>
    intro i h
    unfold findAccountIdx at h
    by_cases ha : a.accountNumber = n
    · rw [if_pos ha] at h
      cases h
      exact ⟨Nat.succ_pos _, ha⟩
    · rw [if_neg ha] at h
      rcases Option.map_eq_some'.mp h with ⟨i', hi', rfl⟩
      rcases ih i' hi' with ⟨h1, h2⟩
      exact ⟨Nat.succ_lt_succ h1, by simpa using h2⟩

/-- If no account of the registry carries the number, the lookup falls
through to NULL. -/
lemma findAccountIdx_eq_none (accounts : List BankAccount) (n : Int)
    (h : ∀ a ∈ accounts, a.accountNumber ≠ n) :
    findAccountIdx accounts n = none := by
  induction accounts with
  | nil => rfl
  | cons a rest ih =>
    unfold findAccountIdx
    rw [if_neg (h a (by simp)), ih (fun b hb => h b (by simp [hb]))]
    rfl

/-- findAccount as a value: no match means NULL. -/
lemma findAccount_eq_none (accounts : List BankAccount) (n : Int)
    (h : ∀ b ∈ accounts, b.accountNumber ≠ n) :
    findAccount accounts n = none := by
  induction accounts with
  | nil => rfl
  | cons a rest ih =>
    unfold findAccount
    rw [if_neg (h a (by simp))]
    exact ih (fun b hb => h b (by simp [hb]))

/-- findAccount returns the first matching account in iteration order. -/
lemma findAccount_append_first (pre : List BankAccount) (a : BankAccount)
    (post : List BankAccount) (n : Int)
    (hpre : ∀ b ∈ pre, b.accountNumber ≠ n) (ha : a.accountNumber = n) :
    findAccount (pre ++ a :: post) n = some a := by
  induction pre with
  | nil => simp [findAccount, ha]
  | cons b rest ih =>
    rw [List.cons_append]
    unfold findAccount
    rw [if_neg (hpre b (by simp))]
    exact ih (fun c hc => hpre c (by simp [hc]))

/-- addTransaction never touches the balance. -/
lemma addTransaction_balance (a : BankAccount) (ty : TransactionType)
    (amt : ℚ) (d : List Char) : (addTransaction a ty amt d).balance = a.balance := by
  unfold addTransaction
  split <;> rfl

/-- addTransaction under capacity: append the record and bump the count. -/
lemma addTransaction_of_lt (a : BankAccount) (ty : TransactionType)
    (amt : ℚ) (d : List Char) (h : a.transactionCount < MAX_TRANSACTIONS) :
    addTransaction a ty amt d =
      { a with
        transactions := a.transactions ++ [⟨ty, amt, d.take 10⟩]
        transactionCount := a.transactionCount + 1 } := by
  unfold addTransaction
  rw [if_neg (Nat.not_le.mpr h)]

/-- addTransaction at capacity: silently dropped, account unchanged. -/
lemma addTransaction_of_ge (a : BankAccount) (ty : TransactionType)
    (amt : ℚ) (d : List Char) (h : MAX_TRANSACTIONS ≤ a.transactionCount) :
    addTransaction a ty amt d = a := by
  unfold addTransaction
  rw [if_pos h]

/-- deposit with a non-positive amount: failure code, account untouched. -/
lemma deposit_nonpos (a : BankAccount) (amt : ℚ) (d : List Char)
    (h : amt ≤ 0) : deposit a amt d = (-1, a) := by
  unfold deposit
  rw [if_pos h]

/-- deposit with a positive amount: success code, balance increased, then
the record is attempted. -/
lemma deposit_pos (a : BankAccount) (amt : ℚ) (d : List Char) (h : 0 < amt) :
    deposit a amt d =
      (0, addTransaction { a with balance := a.balance + amt } .DEPOSIT amt d) := by
  unfold deposit
  rw [if_neg (not_le.mpr h)]

/-- withdraw with a non-positive amount or an overdraft: failure code,
account untouched. -/
lemma withdraw_fail (a : BankAccount) (amt : ℚ) (d : List Char)
    (h : amt ≤ 0 ∨ a.balance < amt) : withdraw a amt d = (-1, a) := by
  unfold withdraw
  by_cases h1 : amt ≤ 0
  · rw [if_pos h1]
  · rcases h with h | h
    · exact absurd h h1
    · rw [if_neg h1, if_pos h]

/-- withdraw when validation passes: success code, balance decreased, then
the record is attempted. -/
lemma withdraw_ok (a : BankAccount) (amt : ℚ) (d : List Char)
    (h1 : 0 < amt) (h2 : amt ≤ a.balance) :
    withdraw a amt d =
      (0, addTransaction { a with balance := a.balance - amt } .WITHDRAWAL amt d) := by
  unfold withdraw
  rw [if_neg (not_le.mpr h1), if_neg (not_lt.mpr h2)]

/-- A zero return from withdraw means both validations passed. -/
lemma withdraw_code_zero (a : BankAccount) (amt : ℚ) (d : List Char)
    (h : (withdraw a amt d).1 = 0) : 0 < amt ∧ amt ≤ a.balance := by
  unfold withdraw at h
  by_cases h1 : amt ≤ 0
  · rw [if_pos h1] at h
    simp at h
  · by_cases h2 : a.balance < amt
    · rw [if_neg h1, if_pos h2] at h
      simp at h
    · exact ⟨not_le.mp h1, not_lt.mp h2⟩

/-- A zero return from deposit means the amount was positive. -/
lemma deposit_code_zero (a : BankAccount) (amt : ℚ) (d : List Char)
    (h : (deposit a amt d).1 = 0) : 0 < amt := by
  by_contra hle
  rw [deposit_nonpos a amt d (not_lt.mp hle)] at h
  simp at h

/-- addTransaction preserves log well-formedness. -/
lemma WF_addTransaction (a : BankAccount) (ty : TransactionType)
    (amt : ℚ) (d : List Char) (h : WF a) : WF (addTransaction a ty amt d) := by
  obtain ⟨h1, h2⟩ := h
  unfold addTransaction
  split
  · exact ⟨h1, h2⟩
  · next hc =>
    exact ⟨by simp [h1], Nat.succ_le_of_lt (not_le.mp hc)⟩

/-- A freshly created account is well-formed. -/
lemma WF_createAccount (n : Int) (name : List Char) : WF (createAccount n name) :=
  ⟨rfl, Nat.zero_le _⟩

/-- The default (out-of-range) account is well-formed. -/
lemma WF_default : WF (default : BankAccount) :=
  ⟨rfl, Nat.zero_le _⟩

/-- Any slot read from an all-well-formed registry is well-formed. -/
lemma WF_getD (accounts : List BankAccount) (h : ∀ a ∈ accounts, WF a)
    (i : Nat) : WF (accounts.getD i default) := by
  by_cases hi : i < accounts.length
  · exact h _ (getD_mem_of_lt accounts i hi)
  · rw [List.getD_eq_default _ _ (Nat.le_of_not_lt hi)]
    exact WF_default

/-- accStep is reflexive. -/
lemma accStep_rfl (a : BankAccount) : accStep a a :=
  ⟨id, [], by simp⟩

/-- accStep composes. -/
lemma accStep_trans {a b c : BankAccount} (h1 : accStep a b) (h2 : accStep b c) :
    accStep a c := by
  obtain ⟨f1, ts1, e1⟩ := h1
  obtain ⟨f2, ts2, e2⟩ := h2
  exact ⟨fun h => f2 (f1 h), ts1 ++ ts2, by rw [e2, e1, List.append_assoc]⟩

/-- deposit takes an account one accStep forward. -/
lemma accStep_deposit (a : BankAccount) (amt : ℚ) (d : List Char) :
    accStep a (deposit a amt d).2 := by
  by_cases h : amt ≤ 0
  · rw [deposit_nonpos a amt d h]
    exact accStep_rfl a
  · rw [deposit_pos a amt d (not_le.mp h)]
    constructor
    · intro hwf
      exact WF_addTransaction _ _ _ _ hwf
    · unfold addTransaction
      split
      · exact ⟨[], by simp⟩
      · exact ⟨[⟨.DEPOSIT, amt, d.take 10⟩], rfl⟩

/-- withdraw takes an account one accStep forward. -/
lemma accStep_withdraw (a : BankAccount) (amt : ℚ) (d : List Char) :
    accStep a (withdraw a amt d).2 := by
  by_cases h1 : amt ≤ 0
  · rw [withdraw_fail a amt d (Or.inl h1)]
    exact accStep_rfl a
  · by_cases h2 : a.balance < amt
    · rw [withdraw_fail a amt d (Or.inr h2)]
      exact accStep_rfl a
    · rw [withdraw_ok a amt d (not_le.mp h1) (not_lt.mp h2)]
      constructor
      · intro hwf
        exact WF_addTransaction _ _ _ _ hwf
      · unfold addTransaction
        split
        · exact ⟨[], by simp⟩
        · exact ⟨[⟨.WITHDRAWAL, amt, d.take 10⟩], rfl⟩

/-- regExt is reflexive. -/
lemma regExt_rfl (xs : List BankAccount) : regExt xs xs :=
  ⟨rfl, fun _ => accStep_rfl _⟩

/-- regExt composes. -/
lemma regExt_trans {xs ys zs : List BankAccount}
    (h1 : regExt xs ys) (h2 : regExt ys zs) : regExt xs zs :=
  ⟨h2.1.trans h1.1, fun k => accStep_trans (h1.2 k) (h2.2 k)⟩

/-- Writing one slot with an accStep-advanced account is a regExt. -/
lemma regExt_set (xs : List BankAccount) (i : Nat) (b : BankAccount)
    (h : accStep (xs.getD i default) b) : regExt xs (xs.set i b) := by
  constructor
  · simp
  · intro k
    by_cases hk : k = i
    · subst hk
      by_cases hlt : k < xs.length
      · rw [getD_set_self_of_lt _ _ _ hlt]
        exact h
      · rw [List.set_eq_of_length_le (Nat.le_of_not_lt hlt)]
        exact accStep_rfl _
    · rw [getD_set_ne_idx _ _ _ _ (Ne.symm hk)]
      exact accStep_rfl _

/-- Every registry-level operation is a regExt. -/
lemma regExt_applyRegOp (accounts : List BankAccount) (op : RegOp) :
    regExt accounts (applyRegOp accounts op) := by
  cases op with
  | dep i amt d => exact regExt_set _ _ _ (accStep_deposit _ _ _)
  | wd i amt d => exact regExt_set _ _ _ (accStep_withdraw _ _ _)
  | xfer f t amt =>
    show regExt accounts (transfer accounts f t amt)
    unfold transfer
    rcases hf : findAccountIdx accounts f with _ | i
    · exact regExt_rfl _
    · rcases ht : findAccountIdx accounts t with _ | j
      · exact regExt_rfl _
      · simp only
        split
        · exact regExt_trans
            (regExt_set accounts i _
              (accStep_withdraw (accounts.getD i default) amt ("Transfer to".toList)))
            (regExt_set _ j _
              (accStep_deposit _ amt ("Transfer from".toList)))
        · exact regExt_rfl _

/-- A whole run of registry operations is a regExt. -/
lemma regExt_runRegOps (ops : List RegOp) :
    ∀ accounts : List BankAccount, regExt accounts (runRegOps accounts ops) := by
  induction ops with
  | nil => intro accounts; exact regExt_rfl _
  | cons op ops ih =>
    intro accounts
    exact regExt_trans (regExt_applyRegOp accounts op) (ih (applyRegOp accounts op))

/-- regExt propagates well-formedness to every member of the new registry. -/
lemma WF_of_regExt (xs ys : List BankAccount) (hext : regExt xs ys)
    (h : ∀ a ∈ xs, WF a) : ∀ a ∈ ys, WF a := by
  intro a ha
  rcases List.mem_iff_getElem.mp ha with ⟨k, hk, rfl⟩
  rw [← List.getD_eq_getElem ys default hk]
  exact (hext.2 k).1 (WF_getD xs h k)

/-- opsNet distributes over cons. -/
lemma opsNet_cons (op : AccountOp) (ops : List AccountOp) :
    opsNet (op :: ops) = opNet op + opsNet ops := by
  simp [opsNet]

/-- txnNet distributes over appending one record. -/
lemma txnNet_append_one (ts : List Transaction) (t : Transaction) :
    txnNet (ts ++ [t]) = txnNet ts + txnSigned t := by
  simp [txnNet]

/-- The net of a sequence of operations is the deposits total minus the
withdrawals total. -/
lemma opsNet_eq_totals (ops : List AccountOp) :
    opsNet ops = depositsTotal ops - withdrawalsTotal ops := by
  induction ops with
  | nil => simp [opsNet, depositsTotal, withdrawalsTotal]
  | cons op ops ih =>
    cases op with
    | dep amt d =>
      simp only [opsNet, opNet, depositsTotal, withdrawalsTotal, List.map_cons,
        List.sum_cons] at ih ⊢
      rw [ih]
      ring
    | wd amt d =>
      simp only [opsNet, opNet, depositsTotal, withdrawalsTotal, List.map_cons,
        List.sum_cons] at ih ⊢
      rw [ih]
      ring

/-- One successful operation on an account with room in the log: the
balance moves by the signed amount, the count bumps by one, and exactly
one record with that signed amount is appended. -/
lemma applyOp_success_spec (a : BankAccount) (op : AccountOp)
    (hc : a.transactionCount < MAX_TRANSACTIONS)
    (h : (applyOp a op).1 = 0) :
    (applyOp a op).2.balance = a.balance + opNet op ∧
    (applyOp a op).2.transactionCount = a.transactionCount + 1 ∧
    ∃ t, (applyOp a op).2.transactions = a.transactions ++ [t] ∧
      txnSigned t = opNet op := by
  cases op with
  | dep amt d =>
    have hpos : 0 < amt := deposit_code_zero a amt d h
    have hnl : ¬ a.transactionCount ≥ MAX_TRANSACTIONS := Nat.not_le.mpr hc
    refine ⟨?_, ?_, ⟨.DEPOSIT, amt, d.take 10⟩, ?_, ?_⟩ <;>
      simp [applyOp, deposit_pos a amt d hpos, addTransaction, hnl, opNet,
        txnSigned]
  | wd amt d =>
    obtain ⟨hpos, hbal⟩ := withdraw_code_zero a amt d h
    have hnl : ¬ a.transactionCount ≥ MAX_TRANSACTIONS := Nat.not_le.mpr hc
    refine ⟨?_, ?_, ⟨.WITHDRAWAL, amt, d.take 10⟩, ?_, ?_⟩ <;>
      simp [applyOp, withdraw_ok a amt d hpos hbal, addTransaction, hnl, opNet,
        txnSigned, sub_eq_add_neg]

/-- Running an all-successful sequence of operations that fits in the
remaining log capacity: the balance moves by the net of the operations,
the count grows by the number of operations, bookkeeping stays exact, and
the net of the recorded transactions moves by the same net. -/
lemma runOps_spec (ops : List AccountOp) : ∀ a : BankAccount,
    a.transactionCount = a.transactions.length →
    a.transactionCount + ops.length ≤ MAX_TRANSACTIONS →
    allSucceed a ops = true →
    (runOps a ops).balance = a.balance + opsNet ops ∧
    (runOps a ops).transactionCount = a.transactionCount + ops.length ∧
    (runOps a ops).transactionCount = (runOps a ops).transactions.length ∧
    txnNet (runOps a ops).transactions = txnNet a.transactions + opsNet ops := by
  induction ops with
  | nil =>
    intro a h1 h2 h3
    refine ⟨?_, rfl, h1, ?_⟩ <;> simp [runOps, opsNet]
  | cons op ops ih =>
    intro a h1 h2 h3
    rw [allSucceed, Bool.and_eq_true] at h3
    obtain ⟨hc0, hrest⟩ := h3
    have hcode : (applyOp a op).1 = 0 := by simpa using hc0
    have hlt : a.transactionCount < MAX_TRANSACTIONS := by
      have hl : ops.length + 1 = (op :: ops).length := by simp
      omega
    obtain ⟨hb, hcnt, t, htr, hsig⟩ := applyOp_success_spec a op hlt hcode
    have hb1 : (applyOp a op).2.transactionCount =
        (applyOp a op).2.transactions.length := by
      rw [hcnt, htr]
      simp [h1]
    have hb2 : (applyOp a op).2.transactionCount + ops.length ≤ MAX_TRANSACTIONS := by
      rw [hcnt]
      have hl : ops.length + 1 = (op :: ops).length := by simp
      omega
    obtain ⟨ih1, ih2, ih3, ih4⟩ := ih (applyOp a op).2 hb1 hb2 hrest
    have hrun : runOps a (op :: ops) = runOps (applyOp a op).2 ops := rfl
    rw [hrun]
    refine ⟨?_, ?_, ih3, ?_⟩
    · rw [ih1, hb, opsNet_cons]
      ring
    · rw [ih2, hcnt]
      simp
      omega
    · rw [ih4, htr, txnNet_append_one, hsig, opsNet_cons]
      ring

/-- A failed withdrawal leaves the balance untouched; a successful one
leaves it at balance − amount, which the overdraft pre-check keeps ≥ 0. -/
lemma withdraw_balance_nonneg (a : BankAccount) (amt : ℚ) (d : List Char)
    (h : 0 ≤ a.balance) : 0 ≤ (withdraw a amt d).2.balance := by
  by_cases h1 : amt ≤ 0
  · rw [withdraw_fail a amt d (Or.inl h1)]
    exact h
  · by_cases h2 : a.balance < amt
    · rw [withdraw_fail a amt d (Or.inr h2)]
      exact h
    · rw [withdraw_ok a amt d (not_le.mp h1) (not_lt.mp h2)]
      show 0 ≤ (addTransaction _ _ _ _).balance
      rw [addTransaction_balance]
      show 0 ≤ a.balance - amt
      exact sub_nonneg.mpr (not_lt.mp h2)

/-- deposit never decreases a balance, so it preserves non-negativity. -/
lemma deposit_balance_nonneg (a : BankAccount) (amt : ℚ) (d : List Char)
    (h : 0 ≤ a.balance) : 0 ≤ (deposit a amt d).2.balance := by
  by_cases h1 : amt ≤ 0
  · rw [deposit_nonpos a amt d h1]
    exact h
  · rw [deposit_pos a amt d (not_le.mp h1)]
    show 0 ≤ (addTransaction _ _ _ _).balance
    rw [addTransaction_balance]
    show 0 ≤ a.balance + amt
    exact add_nonneg h (le_of_lt (not_le.mp h1))

/-- Reading any slot of an all-non-negative registry gives a non-negative
balance (the out-of-range default has balance 0). -/
lemma balance_getD_nonneg (accounts : List BankAccount)
    (h : ∀ b ∈ accounts, 0 ≤ b.balance) (i : Nat) :
    0 ≤ (accounts.getD i default).balance := by
  by_cases hi : i < accounts.length
  · exact h _ (getD_mem_of_lt accounts i hi)
  · rw [List.getD_eq_default _ _ (Nat.le_of_not_lt hi)]
    norm_num [default]

/-- transfer keeps every balance in the registry non-negative. -/
lemma transfer_balances_nonneg (accounts : List BankAccount) (f t : Int)
    (amt : ℚ) (h : ∀ b ∈ accounts, 0 ≤ b.balance) :
    ∀ b ∈ transfer accounts f t amt, 0 ≤ b.balance := by
  unfold transfer
  rcases hf : findAccountIdx accounts f with _ | i
  · exact h
  · rcases ht : findAccountIdx accounts t with _ | j
    · exact h
    · simp only
      split
      · have h1 : ∀ b ∈ accounts.set i
            (withdraw (accounts.getD i default) amt ("Transfer to".toList)).2,
            0 ≤ b.balance := by
          intro b hb
          rcases List.mem_or_eq_of_mem_set hb with hb' | rfl
          · exact h b hb'
          · exact withdraw_balance_nonneg _ _ _ (balance_getD_nonneg accounts h i)
        intro b hb
        rcases List.mem_or_eq_of_mem_set hb with hb' | rfl
        · exact h1 b hb'
        · exact deposit_balance_nonneg _ _ _ (balance_getD_nonneg _ h1 j)
      · exact h

/-- A concrete account whose transaction log is exactly at capacity. -/
def acc10demo : BankAccount :=
  { accountNumber := 1
    holderName := []
    balance := 7
    transactions := List.replicate 10 ⟨.DEPOSIT, 1, []⟩
    transactionCount := 10 }

/-- C1: for every account, a deposit with a non-positive amount, and a
withdraw with a non-positive amount or with an amount greater than the
current balance, each return the failure code −1 (distinct from the
success code 0) and leave the account's entire state unchanged. -/
theorem c1_validation_failure_leaves_state (a : BankAccount) (amtd amtw : ℚ)
    (dd dw : List Char) (hd : amtd ≤ 0) (hw : amtw ≤ 0 ∨ a.balance < amtw) :
    deposit a amtd dd = (-1, a) ∧ withdraw a amtw dw = (-1, a) ∧ (-1 : Int) ≠ 0 :=
  ⟨deposit_nonpos a amtd dd hd, withdraw_fail a amtw dw hw, by norm_num⟩

/-- C1 witness at a concrete account and amounts. -/
theorem c1_witness :
    deposit (createAccount 1 []) (-1) [] = (-1, createAccount 1 []) ∧
    withdraw (createAccount 1 []) 5 [] = (-1, createAccount 1 []) ∧
    (-1 : Int) ≠ 0 :=
  c1_validation_failure_leaves_state (createAccount 1 []) (-1) 5 [] []
    (by norm_num) (Or.inr (by norm_num [createAccount]))

/-- C3: on an account whose transaction count already equals the capacity,
a validated deposit or withdraw still returns 0 and still changes the
balance, but appends no record: every other field, the log and the count
included, is unchanged. -/
theorem c3_full_log_silent_drop (a : BankAccount) (amtd amtw : ℚ)
    (dd dw : List Char) (hfull : a.transactionCount = MAX_TRANSACTIONS)
    (hd : 0 < amtd) (hw : 0 < amtw) (hwb : amtw ≤ a.balance) :
    deposit a amtd dd = (0, { a with balance := a.balance + amtd }) ∧
    withdraw a amtw dw = (0, { a with balance := a.balance - amtw }) := by
  refine ⟨?_, ?_⟩
  · simp [deposit_pos a amtd dd hd, addTransaction, hfull]
  · simp [withdraw_ok a amtw dw hw hwb, addTransaction, hfull]

/-- C3 witness on a concrete account at capacity. -/
theorem c3_witness :
    deposit acc10demo 2 [] = (0, { acc10demo with balance := 7 + 2 }) ∧
    withdraw acc10demo 3 [] = (0, { acc10demo with balance := 7 - 3 }) :=
  c3_full_log_silent_drop acc10demo 2 3 [] [] rfl (by norm_num) (by norm_num)
    (by norm_num [acc10demo])

/-- C5: if either account number is absent from the registry, transfer is
a silent no-op: the registry, so every balance and every log, is
unchanged. -/
theorem c5_transfer_missing_account_noop (accounts : List BankAccount)
    (f t : Int) (amt : ℚ)
    (h : (∀ a ∈ accounts, a.accountNumber ≠ f) ∨
         (∀ a ∈ accounts, a.accountNumber ≠ t)) :
    transfer accounts f t amt = accounts := by
  unfold transfer
  rcases h with h | h
  · rw [findAccountIdx_eq_none accounts f h]
  · rcases hf : findAccountIdx accounts f with _ | i
    · rfl
    · rw [findAccountIdx_eq_none accounts t h]

/-- C5 witness: transfer against an absent source id. -/
theorem c5_witness :
    transfer [createAccount 7 []] 8 7 3 = [createAccount 7 []] :=
  c5_transfer_missing_account_noop [createAccount 7 []] 8 7 3
    (Or.inl (by norm_num [createAccount]))

/-- C6: whenever the withdraw leg returns 0, the deposit leg on any
destination account with the same amount also returns 0: the deposit
failure branch is unreachable after a successful withdraw. -/
theorem c6_deposit_leg_cannot_fail (a b : BankAccount) (amt : ℚ)
    (d e : List Char) (h : (withdraw a amt d).1 = 0) :
    (deposit b amt e).1 = 0 := by
  obtain ⟨hpos, -⟩ := withdraw_code_zero a amt d h
  rw [deposit_pos b amt e hpos]

/-- C6 witness: a successful withdrawal of 5 forces the matching deposit
to succeed. -/
theorem c6_witness : (deposit (createAccount 2 []) 5 []).1 = 0 :=
  c6_deposit_leg_cannot_fail acc10demo (createAccount 2 []) 5 [] []
    (by norm_num [withdraw, acc10demo, addTransaction])

/-- C7: withdraw never turns a non-negative balance negative, and transfer
(whose only balance changes go through withdraw and deposit) keeps every
balance of an all-non-negative registry non-negative. -/
theorem c7_no_negative_balance (a : BankAccount) (amt : ℚ) (d : List Char)
    (accounts : List BankAccount) (f t : Int) (amt2 : ℚ)
    (h1 : 0 ≤ a.balance) (h2 : ∀ b ∈ accounts, 0 ≤ b.balance) :
    0 ≤ (withdraw a amt d).2.balance ∧
    ∀ b ∈ transfer accounts f t amt2, 0 ≤ b.balance :=
  ⟨withdraw_balance_nonneg a amt d h1,
   transfer_balances_nonneg accounts f t amt2 h2⟩

/-- C7 witness at a concrete account and registry. -/
theorem c7_witness :
    0 ≤ (withdraw (createAccount 3 []) 5 []).2.balance ∧
    ∀ b ∈ transfer [createAccount 4 []] 4 4 1, 0 ≤ b.balance :=
  c7_no_negative_balance (createAccount 3 []) 5 [] [createAccount 4 []] 4 4 1
    (by norm_num [createAccount]) (by simp [createAccount])

/-- C8: findAccount returns NULL when no account matches, and otherwise
the first account in iteration order whose number matches, so accounts
after the first match are never preferred even under duplicate numbers. -/
theorem c8_findAccount_first_match (accounts : List BankAccount) (n : Int) :
    ((∀ b ∈ accounts, b.accountNumber ≠ n) → findAccount accounts n = none) ∧
    (∀ pre a post, accounts = pre ++ a :: post →
      (∀ b ∈ pre, b.accountNumber ≠ n) → a.accountNumber = n →
      findAccount accounts n = some a) := by
  refine ⟨findAccount_eq_none accounts n, ?_⟩
  intro pre a post heq hpre ha
  rw [heq]
  exact findAccount_append_first pre a post n hpre ha

/-- C8 witness on a registry with a duplicated account number. -/
theorem c8_witness :
    findAccount [createAccount 1 (['x']), createAccount 2 (['y']),
      createAccount 2 (['z'])] 5 = none ∧
    findAccount [createAccount 1 (['x']), createAccount 2 (['y']),
      createAccount 2 (['z'])] 2 = some (createAccount 2 (['y'])) := by
  constructor
  · exact (c8_findAccount_first_match _ 5).1 (by norm_num [createAccount])
  · exact (c8_findAccount_first_match _ 2).2 [createAccount 1 (['x'])]
      (createAccount 2 (['y'])) [createAccount 2 (['z'])] rfl
      (by norm_num [createAccount]) rfl

/-- C9 counterexample: the holder name buffer is NAME_LENGTH = 5 bytes and
strncpy with count 5 keeps 5 characters of "Alice", not at most 4. -/
theorem c9_counterexample :
    (createAccount 1001 ("Alice".toList)).holderName.length = 5 ∧
    ¬ ((createAccount 1001 ("Alice".toList)).holderName.length ≤ 4) := by
  constructor
  · decide
  · decide

/-- C9 (amended): createAccount yields an account with the given number,
balance 0, empty log with count 0, and the holder name truncated to at
most NAME_LENGTH = 5 characters (strncpy guarantees no terminator). -/
theorem c9_createAccount_spec (n : Int) (name : List Char) :
    (createAccount n name).accountNumber = n ∧
    (createAccount n name).balance = 0 ∧
    (createAccount n name).transactions = [] ∧
    (createAccount n name).transactionCount = 0 ∧
    (createAccount n name).holderName = name.take NAME_LENGTH ∧
    (createAccount n name).holderName.length ≤ NAME_LENGTH := by
  refine ⟨rfl, rfl, rfl, rfl, rfl, ?_⟩
  simp [createAccount]

/-- Projections of addTransaction under capacity. -/
lemma addTransaction_count_lt (a : BankAccount) (ty : TransactionType)
    (amt : ℚ) (d : List Char) (h : a.transactionCount < MAX_TRANSACTIONS) :
    (addTransaction a ty amt d).transactionCount = a.transactionCount + 1 ∧
    (addTransaction a ty amt d).transactions =
      a.transactions ++ [⟨ty, amt, d.take 10⟩] := by
  rw [addTransaction_of_lt a ty amt d h]
  exact ⟨rfl, rfl⟩

/-- C2: starting from a freshly created account, after any all-successful
sequence of deposits and withdrawals of length at most the log capacity,
the balance equals the sum of deposited amounts minus the sum of withdrawn
amounts, which is also the net of the recorded transactions. -/
theorem c2_balance_is_net (n : Int) (name : List Char) (ops : List AccountOp)
    (hlen : ops.length ≤ MAX_TRANSACTIONS)
    (hs : allSucceed (createAccount n name) ops = true) :
    (runOps (createAccount n name) ops).balance =
      depositsTotal ops - withdrawalsTotal ops ∧
    (runOps (createAccount n name) ops).balance =
      txnNet (runOps (createAccount n name) ops).transactions := by
  obtain ⟨h1, h2, h3, h4⟩ := runOps_spec ops (createAccount n name) rfl
    (by simpa [createAccount] using hlen) hs
  constructor
  · rw [h1, ← opsNet_eq_totals,
      show (createAccount n name).balance = 0 from rfl, zero_add]
  · rw [h1, h4, show (createAccount n name).balance = 0 from rfl,
      show (createAccount n name).transactions = ([] : List Transaction) from rfl]
    simp [txnNet]

/-- C2 witness: one deposit of 5 then one withdrawal of 2. -/
theorem c2_witness :
    (runOps (createAccount 1 []) [AccountOp.dep 5 [], AccountOp.wd 2 []]).balance =
      depositsTotal [AccountOp.dep 5 [], AccountOp.wd 2 []] -
      withdrawalsTotal [AccountOp.dep 5 [], AccountOp.wd 2 []] ∧
    (runOps (createAccount 1 []) [AccountOp.dep 5 [], AccountOp.wd 2 []]).balance =
      txnNet (runOps (createAccount 1 [])
        [AccountOp.dep 5 [], AccountOp.wd 2 []]).transactions :=
  c2_balance_is_net 1 [] [AccountOp.dep 5 [], AccountOp.wd 2 []]
    (by decide)
    (by norm_num [allSucceed, applyOp, deposit, withdraw, addTransaction,
      createAccount, MAX_TRANSACTIONS])

/-- C4 counterexample: with fromId = toId = 1 present and sufficient
balance 5, the claim demands the source balance to decrease by the
amount, but the self-transfer leaves it unchanged (5, not 0). -/
theorem c4_counterexample :
    findAccountIdx [(deposit (createAccount 1 []) 5 []).2] 1 = some 0 ∧
    (0 : ℚ) < 5 ∧
    (5 : ℚ) ≤ (([(deposit (createAccount 1 []) 5 []).2]).getD 0 default).balance ∧
    ((transfer [(deposit (createAccount 1 []) 5 []).2] 1 1 5).getD 0
        default).balance ≠
      (([(deposit (createAccount 1 []) 5 []).2]).getD 0 default).balance - 5 := by
  refine ⟨?_, by norm_num, ?_, ?_⟩
  · norm_num [findAccountIdx, deposit, addTransaction, createAccount,
      MAX_TRANSACTIONS]
  · norm_num [deposit, addTransaction, createAccount, List.getD,
      MAX_TRANSACTIONS]
  · norm_num [transfer, findAccountIdx, deposit, withdraw, addTransaction,
      createAccount, List.getD, MAX_TRANSACTIONS]

/-- C4 (amended): when fromId and toId are both present, resolve to
distinct ids, and the source balance suffices for a positive amount,
transfer moves the amount from source to destination and appends one
record to each of the two accounts whose log is under capacity. -/
theorem c4_transfer_spec (accounts : List BankAccount) (fromN toN : Int)
    (amt : ℚ) (i j : Nat)
    (hi : findAccountIdx accounts fromN = some i)
    (hj : findAccountIdx accounts toN = some j)
    (hne : fromN ≠ toN) (hpos : 0 < amt)
    (hbal : amt ≤ (accounts.getD i default).balance) :
    ((transfer accounts fromN toN amt).getD i default).balance =
      (accounts.getD i default).balance - amt ∧
    ((transfer accounts fromN toN amt).getD j default).balance =
      (accounts.getD j default).balance + amt ∧
    ((accounts.getD i default).transactionCount < MAX_TRANSACTIONS →
      ((transfer accounts fromN toN amt).getD i default).transactionCount =
        (accounts.getD i default).transactionCount + 1 ∧
      ∃ t, ((transfer accounts fromN toN amt).getD i default).transactions =
        (accounts.getD i default).transactions ++ [t]) ∧
    ((accounts.getD j default).transactionCount < MAX_TRANSACTIONS →
      ((transfer accounts fromN toN amt).getD j default).transactionCount =
        (accounts.getD j default).transactionCount + 1 ∧
      ∃ t, ((transfer accounts fromN toN amt).getD j default).transactions =
        (accounts.getD j default).transactions ++ [t]) := by
  obtain ⟨hilt, hinum⟩ := findAccountIdx_some_spec accounts fromN i hi
  obtain ⟨hjlt, hjnum⟩ := findAccountIdx_some_spec accounts toN j hj
  have hij : i ≠ j := fun he => hne (by rw [← hinum, he, hjnum])
  have hji : j ≠ i := fun he => hij he.symm
  have hwd := withdraw_ok (accounts.getD i default) amt ("Transfer to".toList)
    hpos hbal
  have htr : transfer accounts fromN toN amt =
      (accounts.set i
        (addTransaction
          { accounts.getD i default with
            balance := (accounts.getD i default).balance - amt }
          .WITHDRAWAL amt ("Transfer to".toList))).set j
        (deposit (accounts.getD j default) amt ("Transfer from".toList)).2 := by
    unfold transfer
    simp only [hi, hj]
    rw [hwd]
    simp only [getD_set_ne_idx accounts i j _ hij]
    simp
  have hgi : (transfer accounts fromN toN amt).getD i default =
      addTransaction
        { accounts.getD i default with
          balance := (accounts.getD i default).balance - amt }
        .WITHDRAWAL amt ("Transfer to".toList) := by
    rw [htr, getD_set_ne_idx _ j i _ hji, getD_set_self_of_lt _ _ _ hilt]
  have hgj : (transfer accounts fromN toN amt).getD j default =
      (deposit (accounts.getD j default) amt ("Transfer from".toList)).2 := by
    rw [htr, getD_set_self_of_lt _ _ _ (by simpa using hjlt)]
  refine ⟨?_, ?_, ?_, ?_⟩
  · rw [hgi]
    exact addTransaction_balance _ _ _ _
  · rw [hgj, deposit_pos (accounts.getD j default) amt _ hpos]
    exact addTransaction_balance _ _ _ _
  · intro hsrc
    obtain ⟨hc, ht⟩ := addTransaction_count_lt
      { accounts.getD i default with
        balance := (accounts.getD i default).balance - amt }
      .WITHDRAWAL amt ("Transfer to".toList) hsrc
    exact ⟨by rw [hgi]; exact hc, ⟨_, by rw [hgi]; exact ht⟩⟩
  · intro hdst
    obtain ⟨hc, ht⟩ := addTransaction_count_lt
      { accounts.getD j default with
        balance := (accounts.getD j default).balance + amt }
      .DEPOSIT amt ("Transfer from".toList) hdst
    refine ⟨?_, ⟨⟨.DEPOSIT, amt, ("Transfer from".toList).take 10⟩, ?_⟩⟩
    · rw [hgj, deposit_pos (accounts.getD j default) amt _ hpos]
      exact hc
    · rw [hgj, deposit_pos (accounts.getD j default) amt _ hpos]
      exact ht

/-- C4 witness: transfer of 3 from account 1 (balance 5) to account 2. -/
theorem c4_witness :
    ((transfer [(deposit (createAccount 1 []) 5 []).2, createAccount 2 []]
        1 2 3).getD 0 default).balance =
      (([(deposit (createAccount 1 []) 5 []).2,
        createAccount 2 []]).getD 0 default).balance - 3 ∧
    ((transfer [(deposit (createAccount 1 []) 5 []).2, createAccount 2 []]
        1 2 3).getD 1 default).balance =
      (([(deposit (createAccount 1 []) 5 []).2,
        createAccount 2 []]).getD 1 default).balance + 3 := by
  have h := c4_transfer_spec
    [(deposit (createAccount 1 []) 5 []).2, createAccount 2 []] 1 2 3 0 1
    (by norm_num [findAccountIdx, deposit, addTransaction, createAccount,
      MAX_TRANSACTIONS])
    (by norm_num [findAccountIdx, deposit, addTransaction, createAccount,
      MAX_TRANSACTIONS])
    (by norm_num) (by norm_num)
    (by norm_num [deposit, addTransaction, createAccount, List.getD,
      MAX_TRANSACTIONS])
  exact ⟨h.1, h.2.1⟩

/-- Running a concatenation of registry operations runs the two parts in
sequence. -/
lemma runRegOps_append (ops1 ops2 : List RegOp) :
    ∀ accounts : List BankAccount,
      runRegOps accounts (ops1 ++ ops2) =
        runRegOps (runRegOps accounts ops1) ops2 := by
  induction ops1 with
  | nil => intro accounts; rfl
  | cons op ops1 ih => intro accounts; exact ih (applyRegOp accounts op)

/-- C10: starting from accounts created by createAccount, at every point
of any sequence of registry operations (every decomposition of the run
into a prefix already performed and a suffix still to come) every
transaction count is at most 10 and the records occupy exactly the first
transactionCount slots; and between that intermediate state and the final
state each account's log only grows by appending at the end, so records
are never reordered or removed at any step of the run. -/
theorem c10_log_invariant (accounts : List BankAccount)
    (ops ops1 ops2 : List RegOp)
    (hinit : ∀ a ∈ accounts, ∃ n name, a = createAccount n name)
    (hsplit : ops = ops1 ++ ops2) :
    (∀ a ∈ runRegOps accounts ops1,
      a.transactionCount ≤ MAX_TRANSACTIONS ∧
      a.transactionCount = a.transactions.length) ∧
    ∀ k : Nat, ∃ ts, ((runRegOps accounts ops).getD k default).transactions =
      (((runRegOps accounts ops1).getD k default).transactions) ++ ts := by
  have hwf : ∀ a ∈ accounts, WF a := by
    intro a ha
    obtain ⟨n, name, rfl⟩ := hinit a ha
    exact WF_createAccount n name
  have hext1 := regExt_runRegOps ops1 accounts
  constructor
  · intro a ha
    have hW := WF_of_regExt accounts _ hext1 hwf a ha
    exact ⟨hW.2, hW.1⟩
  · intro k
    have hext2 := regExt_runRegOps ops2 (runRegOps accounts ops1)
    rw [hsplit, runRegOps_append ops1 ops2 accounts]
    exact (hext2.2 k).2

/-- C10 witness: one registry starting from a created account; after the
deposit prefix (mid-run state with a non-empty log) the count invariant
holds, and the remaining self-transfer only appends to each slot's log. -/
theorem c10_witness :
    (∀ a ∈ runRegOps [createAccount 1 []] [RegOp.dep 0 5 []],
      a.transactionCount ≤ MAX_TRANSACTIONS ∧
      a.transactionCount = a.transactions.length) ∧
    ∀ k : Nat, ∃ ts,
      ((runRegOps [createAccount 1 []]
        [RegOp.dep 0 5 [], RegOp.xfer 1 1 2]).getD k default).transactions =
      (((runRegOps [createAccount 1 []]
        [RegOp.dep 0 5 []]).getD k default).transactions) ++ ts :=
  c10_log_invariant [createAccount 1 []]
    [RegOp.dep 0 5 [], RegOp.xfer 1 1 2] [RegOp.dep 0 5 []] [RegOp.xfer 1 1 2]
    (by intro a ha; rw [List.mem_singleton] at ha; exact ⟨1, [], ha⟩) rfl
